import Mathlib

/-!
Shallow embedding of `jaeger_client/codecs.py` (TextCodec, BinaryCodec,
ZipkinCodec, B3Codec and the shared combined-string helpers), together with
theorems settling the specification claims about it.

Modelling conventions:
- Python `int` is `Int` (arbitrary precision); byte values are `Nat`.
- Python `None` is `Option.none`; a value that may be `None` has type
  `Option _`.
- Python truthiness tests (`if not x`) on such values are the `pyFalsy*`
  helpers below: `None`, `0`, `''` and `{}` are falsy.
- Python string-keyed `dict`s are association lists in insertion order;
  `d[k] = v` is `dictSet` (replace in place, or append when the key is new).
- Exceptions become `Except PyErr`.  `PyErr.contextCorrupted` models
  `opentracing.SpanContextCorruptedException` (the spec's
  `ContextCorruptedError`), `PyErr.invalidCarrier` models
  `opentracing.InvalidCarrierException` (the spec's `CarrierShapeError`)
  and carries the message because one claim is about the message text,
  `PyErr.structError` models `struct.error`, `PyErr.unicodeDecodeError`
  models `UnicodeDecodeError`, and `PyErr.typeError` models `TypeError`
  (e.g. comparing or formatting `None`).  Interpolated message payloads of
  `contextCorrupted` are omitted: no claim depends on them.
-/

/-- Error kinds the codecs can surface, by Python exception class. -/
inductive PyErr : Type where
  | invalidCarrier (msg : String)
  | contextCorrupted
  | structError
  | unicodeDecodeError
  | typeError
deriving DecidableEq, Repr

/-- Python truthiness of an optional integer: `None` and `0` are falsy. -/
def pyFalsyInt : Option Int → Bool
  | none => true
  | some v => v == 0

/-- Python truthiness of an optional string: `None` and `''` are falsy. -/
def pyFalsyStr : Option String → Bool
  | none => true
  | some s => s == ""

/-- Python truthiness of an optional dict: `None` and `{}` are falsy. -/
def pyFalsyDict : Option (List (String × String)) → Bool
  | none => true
  | some l => l.isEmpty

/-- `d[k] = v` on an insertion-ordered string dict: replace the value of an
existing key in place, otherwise append the new binding. -/
def dictSet : List (String × String) → String → String → List (String × String)
  | [], k, v => [(k, v)]
  | (k', v') :: rest, k, v =>
      if k' = k then (k', v) :: rest else (k', v') :: dictSet rest k v

/-- Python ASCII whitespace, as stripped by `str.strip ()` (the unicode
whitespace Python additionally strips does not occur in this protocol). -/
def pyIsSpace (c : Char) : Bool :=
  c = ' ' ∨ c = '\t' ∨ c = '\n' ∨ c = '\r' ∨ c = '\x0b' ∨ c = '\x0c'

/-- Python `str.strip ()` on a character list. -/
def pyStripChars (l : List Char) : List Char :=
  ((l.dropWhile pyIsSpace).reverse.dropWhile pyIsSpace).reverse

/-- `str.lower ()` on one character (the headers are ASCII). -/
def pyLowerChar (c : Char) : Char :=
  if 'A' ≤ c ∧ c ≤ 'Z' then Char.ofNat (c.toNat + 32) else c

/-- Python `str.lower ()` (ASCII model). -/
def pyLower (s : String) : String := ⟨s.data.map pyLowerChar⟩

/-- Python `str.replace (old, new)` for one-character patterns, used by the
TextCodec constructor's `.replace ('_', '-')`. -/
def pyReplaceChar (s : String) (old new : Char) : String :=
  ⟨s.data.map fun c => if c = old then new else c⟩

/-- Python `str.split (sep)` for a one-character separator: keeps empty
parts, never drops separators. -/
def pySplitChars : List Char → Char → List (List Char)
  | [], _ => [[]]
  | c :: rest, sep =>
      match pySplitChars rest sep with
      | g :: gs => if c = sep then [] :: g :: gs else (c :: g) :: gs
      | [] => [[c]]

/-- Python `str.split (sep)` at the string level. -/
def pySplit (s : String) (sep : Char) : List String :=
  (pySplitChars s.data sep).map fun cs => ⟨cs⟩

/-- Python `str.startswith (pre)`. -/
def listStartsWith : List Char → List Char → Bool
  | _, [] => true
  | [], _ :: _ => false
  | a :: as, b :: bs => a = b && listStartsWith as bs

/-- Python `str.startswith (pre)` at the string level. -/
def pyStartsWith (s pre : String) : Bool := listStartsWith s.data pre.data

/-- Python slicing `s[n:]` (by character, as Python indexes `str`). -/
def pyDrop (s : String) (n : Nat) : String := ⟨s.data.drop n⟩

/-- Value of a hexadecimal digit character, for `int(s, 16)`. -/
def hexDigitVal (c : Char) : Option Nat :=
  if '0' ≤ c ∧ c ≤ '9' then some (c.toNat - 48)
  else if 'a' ≤ c ∧ c ≤ 'f' then some (c.toNat - 87)
  else if 'A' ≤ c ∧ c ≤ 'F' then some (c.toNat - 55)
  else none

/-- Digit tail of Python `int(s, 16)`: hex digits with single underscores
allowed between digits (not trailing, not doubled). -/
def hexDigitsCore : List Char → Nat → Option Nat
  | [], acc => some acc
  | '_' :: [], _ => none
  | '_' :: c :: rest, acc =>
      match hexDigitVal c with
      | some d => hexDigitsCore rest (acc * 16 + d)
      | none => none
  | c :: rest, acc =>
      match hexDigitVal c with
      | some d => hexDigitsCore rest (acc * 16 + d)
      | none => none

/-- First digit of the digit run of `int(s, 16)`: must be a hex digit
(an underscore may not lead). -/
def hexStart : List Char → Option Nat
  | [] => none
  | c :: rest =>
      match hexDigitVal c with
      | some d => hexDigitsCore rest d
      | none => none

/-- Unsigned part of Python `int(s, 16)`: optional `0x`/`0X` prefix (an
underscore may directly follow the prefix), then hex digits. -/
def parseHexMagnitude (cs : List Char) : Option Nat :=
  match cs with
  | '0' :: x :: rest =>
      if x = 'x' ∨ x = 'X' then
        match rest with
        | '_' :: rest' => hexStart rest'
        | _ => hexStart rest
      else hexStart cs
  | _ => hexStart cs

/-- Python `int(s, 16)`: strip surrounding whitespace, optional sign,
optional `0x` prefix, hex digits; `none` models `ValueError`. -/
def parseHexPy (s : String) : Option Int :=
  match pyStripChars s.data with
  | '+' :: rest => (parseHexMagnitude rest).map Int.ofNat
  | '-' :: rest => (parseHexMagnitude rest).map (fun n => -(Int.ofNat n))
  | cs => (parseHexMagnitude cs).map Int.ofNat

/-- `'{:x}'.format (n)` for a natural number: lower-case hex, no prefix,
no padding. -/
def natToHex (n : Nat) : String := ⟨Nat.toDigits 16 n⟩

/-- `'{:x}'.format (i)` for a Python int: a `-` sign followed by the hex
magnitude when negative. -/
def intToHex (i : Int) : String :=
  if i < 0 then "-" ++ natToHex i.natAbs else natToHex i.toNat

/-- Python `str.zfill (w)`: left-pad with zeros to width `w`, keeping a
leading sign in front of the padding. -/
def zfill (s : String) (w : Nat) : String :=
  let pad := List.replicate (w - s.length) '0'
  match s.data with
  | c :: cs =>
      if c = '+' ∨ c = '-' then ⟨c :: (pad ++ cs)⟩ else ⟨pad ++ (c :: cs)⟩
  | [] => ⟨pad⟩

/-- The in-memory trace context value.

Modelled from the spec: the `SpanContext` collaborator
(`jaeger_client/span_context.py` is not under `src/`).  Per the spec it is
constructed from `trace_id, span_id, parent_id, flags, baggage, debug_id`
with read access to each field; `parent_id` is "unsigned 64-bit integer or
absent; absent denotes a root span; the wire value 0 is the canonical
encoding of absent in every format that carries it", so construction
normalises a falsy `parent_id` (`0` or `None`) to absent, and a `None`
baggage to the empty mapping. -/
structure SpanContext : Type where
  trace_id : Option Int
  span_id : Option Int
  parent_id : Option Int
  flags : Option Int
  baggage : List (String × String)
  debug_id : Option String
deriving DecidableEq, Repr

/-- Modelled from the spec: `SpanContext` construction (see `SpanContext`):
`parent_id or None`, `baggage or {}`. -/
def mkSpanContext (trace_id span_id parent_id flags : Option Int)
    (baggage : Option (List (String × String))) (debug_id : Option String) :
    SpanContext :=
  { trace_id := trace_id
    span_id := span_id
    parent_id := if parent_id = some 0 then none else parent_id
    flags := flags
    baggage := baggage.getD []
    debug_id := debug_id }

/-- Modelled from the spec: default trace header name from
`jaeger_client/constants.py` (not under `src/`), spec §6. -/
def TRACE_ID_HEADER : String := "uber-trace-id"

/-- Modelled from the spec: default baggage header prefix, spec §6. -/
def BAGGAGE_HEADER_PREFIX : String := "uberctx-"

/-- Modelled from the spec: default debug-id header name, spec §6. -/
def DEBUG_ID_HEADER_KEY : String := "jaeger-debug-id"

/-- Modelled from the spec: default aggregated baggage header name,
spec §6. -/
def BAGGAGE_HEADER_KEY : String := "jaeger-baggage"

/-- Modelled from the spec: the SAMPLED bit of the 8-bit flags bitmask
(`jaeger_client/constants.py` is not under `src/`); SAMPLED and DEBUG are
independent bits, with the conventional values 0x01 and 0x02. -/
def SAMPLED_FLAG : Int := 1

/-- Modelled from the spec: the DEBUG bit of the flags bitmask
(see `SAMPLED_FLAG`). -/
def DEBUG_FLAG : Int := 2

/-- A dynamically-typed Python header value: a string, a list, or a value
of any other type (only the shapes `span_context_from_string`
distinguishes). -/
inductive PyVal : Type where
  | vStr (s : String)
  | vList (l : List PyVal)
  | vOther

instance {ε α : Type} [DecidableEq ε] [DecidableEq α] : DecidableEq (Except ε α) := fun
  | .error e, .error e' =>
      if h : e = e' then .isTrue (congrArg _ h)
      else .isFalse fun hh => h (Except.error.inj hh)
  | .error _, .ok _ => .isFalse Except.noConfusion
  | .ok _, .error _ => .isFalse Except.noConfusion
  | .ok a, .ok b =>
      if h : a = b then .isTrue (congrArg _ h)
      else .isFalse fun hh => h (Except.ok.inj hh)

/-- `span_context_to_string`: `{trace_id:x}:{span_id:x}:{parent_id:x}:{flags:x}`
with `parent_id = parent_id or 0`. -/
def spanContextToString (trace_id span_id : Int) (parent_id : Option Int)
    (flags : Int) : String :=
  intToHex trace_id ++ ":" ++ intToHex span_id ++ ":" ++
    intToHex (parent_id.getD 0) ++ ":" ++ intToHex flags

/-- Tail of `span_context_from_string` after `value.split (':')`: exactly
4 parts required, each parsed as hex (`int (part, 16)` raising
`ValueError` is re-raised as a corruption error), minimum checks, and
`parent_id == 0` mapped to `None`. -/
def spanContextFromParts (parts : List String) : Except PyErr (Int × Int × Option Int × Int) :=
  match parts with
  | [p0, p1, p2, p3] =>
      match parseHexPy p0, parseHexPy p1, parseHexPy p2, parseHexPy p3 with
      | some trace_id, some span_id, some parent_id, some flags =>
          if trace_id < 1 ∨ span_id < 1 ∨ parent_id < 0 ∨ flags < 0 then
            .error .contextCorrupted
          else
            .ok (trace_id, span_id,
                 if parent_id = 0 then none else some parent_id, flags)
      | _, _, _, _ => .error .contextCorrupted
  | _ => .error .contextCorrupted

/-- Body of `span_context_from_string` after the list unwrap: the
isinstance-of-`str` check, then split on `:` and decode. -/
def spanContextFromStr (value : PyVal) : Except PyErr (Int × Int × Option Int × Int) :=
  match value with
  | .vStr s => spanContextFromParts (pySplit s ':')
  | _ => .error .contextCorrupted

/-- `span_context_from_string`: a non-empty list carrier value is rejected
when it has more than one element and unwrapped when it has exactly one;
then `spanContextFromStr`. -/
def spanContextFromString (value : PyVal) : Except PyErr (Int × Int × Option Int × Int) :=
  match value with
  | .vList l =>
      if l.length > 1 then .error .contextCorrupted
      else
        match l with
        | [v] => spanContextFromStr v
        | _ => spanContextFromStr (.vList l)
  | v => spanContextFromStr v

/-- `TextCodec` configuration after `__init__` normalisation. -/
structure TextCodec : Type where
  url_encoding : Bool
  trace_id_header : String
  baggagePfx : String
  debug_id_header : String
  baggage_header : String
  pfxLen : Nat
deriving Repr

/-- `TextCodec.__init__`: lower-case and hyphen-normalise the configured
header names (the aggregated baggage header name is stored raw); the
prefix length is that of the raw configured prefix. -/
def TextCodec.init (url_encoding : Bool)
    (trace_id_header baggagePfx debug_id_header baggage_header : String) :
    TextCodec :=
  { url_encoding := url_encoding
    trace_id_header := pyReplaceChar (pyLower trace_id_header) '_' '-'
    baggagePfx := pyReplaceChar (pyLower baggagePfx) '_' '-'
    debug_id_header := pyReplaceChar (pyLower debug_id_header) '_' '-'
    baggage_header := baggage_header
    pfxLen := baggagePfx.length }

/-- A `TextCodec ()` built with all default header names. -/
def defaultTextCodec : TextCodec :=
  TextCodec.init false TRACE_ID_HEADER BAGGAGE_HEADER_PREFIX
    DEBUG_ID_HEADER_KEY BAGGAGE_HEADER_KEY

/-- `TextCodec._parse_baggage_header`: split the aggregated header on
commas, strip each part, split it on every `=`, keep exactly-two-token
pairs, silently skip the rest. -/
def parseBaggageHeader (header : String)
    (baggage : Option (List (String × String))) :
    Option (List (String × String)) :=
  (pySplit header ',').foldl
    (fun b part =>
      match pySplit ⟨pyStripChars part.data⟩ '=' with
      | [k, v] =>
          match b with
          | none => some [(k, v)]
          | some l => if l.isEmpty then some [(k, v)] else some (dictSet l k v)
      | _ => b)
    baggage

/-- The local variables of `TextCodec.extract`'s scan loop. -/
structure TextState : Type where
  trace_id : Option Int
  span_id : Option Int
  parent_id : Option Int
  flags : Option Int
  baggage : Option (List (String × String))
  debug_id : Option String
deriving DecidableEq, Repr

/-- Loop variables at the start of `TextCodec.extract`. -/
def textInitState : TextState := ⟨none, none, none, none, none, none⟩

/-- One iteration of `TextCodec.extract`'s scan: classify the entry by
case-insensitive key and update the loop variables.  `unquote` stands for
`urllib.parse.unquote` (an external collaborator), applied only when URL
encoding is configured. -/
def textExtractStep (cfg : TextCodec) (unquote : String → String)
    (st : TextState) (key value : String) : Except PyErr TextState :=
  let uc_key := pyLower key
  if uc_key = cfg.trace_id_header then
    let value := if cfg.url_encoding then unquote value else value
    match spanContextFromString (.vStr value) with
    | .error e => .error e
    | .ok (t, s, p, f) =>
        .ok { st with trace_id := some t, span_id := some s,
                      parent_id := p, flags := some f }
  else if pyStartsWith uc_key cfg.baggagePfx then
    let value := if cfg.url_encoding then unquote value else value
    let attr_key := pyDrop key cfg.pfxLen
    .ok { st with baggage :=
            match st.baggage with
            | none => some [(pyLower attr_key, value)]
            | some l => some (dictSet l (pyLower attr_key) value) }
  else if uc_key = cfg.debug_id_header then
    let value := if cfg.url_encoding then unquote value else value
    .ok { st with debug_id := some value }
  else if uc_key = cfg.baggage_header then
    let value := if cfg.url_encoding then unquote value else value
    .ok { st with baggage := parseBaggageHeader value st.baggage }
  else .ok st

/-- The scan loop of `TextCodec.extract` over all carrier entries. -/
def textExtractLoop (cfg : TextCodec) (unquote : String → String) :
    List (String × String) → TextState → Except PyErr TextState
  | [], st => .ok st
  | (k, v) :: rest, st =>
      match textExtractStep cfg unquote st k v with
      | .error e => .error e
      | .ok st' => textExtractLoop cfg unquote rest st'

/-- `TextCodec.extract`.  The carrier is modelled as a string-keyed
mapping in iteration order, so the `hasattr (carrier, 'items')` shape
check always passes. -/
def textExtract (cfg : TextCodec) (unquote : String → String)
    (carrier : List (String × String)) : Except PyErr (Option SpanContext) :=
  match textExtractLoop cfg unquote carrier textInitState with
  | .error e => .error e
  | .ok st =>
      let ids : Option Int × Option Int × Option Int × Option Int :=
        if pyFalsyInt st.trace_id || pyFalsyInt st.span_id then
          (none, none, none, none)
        else (st.trace_id, st.span_id, st.parent_id, st.flags)
      match ids with
      | (t, s, p, f) =>
          if pyFalsyInt t && pyFalsyStr st.debug_id && pyFalsyDict st.baggage then
            .ok none
          else .ok (some (mkSpanContext t s p f st.baggage st.debug_id))

example : spanContextFromString (.vStr "abc:1:0:1") = .ok (0xabc, 1, none, 1) := by decide
example : spanContextFromString (.vStr "nothex:1:0:1") = .error .contextCorrupted := by decide
example : spanContextFromString (.vStr "1:2:0:1") = .ok (1, 2, none, 1) := by decide
example : spanContextFromString (.vStr "a:b:c") = .error .contextCorrupted := by decide
example : spanContextFromString (.vList [.vStr "3:2:1:1", .vStr "x"]) = .error .contextCorrupted := by decide
example : spanContextFromString (.vList [.vStr "3:2:1:1"]) = .ok (3, 2, some 1, 1) := by decide
example : spanContextFromString (.vList []) = .error .contextCorrupted := by decide
example : spanContextFromString .vOther = .error .contextCorrupted := by decide
example : spanContextFromString (.vStr "0:2:0:1") = .error .contextCorrupted := by decide
example : spanContextFromString (.vStr "-1:2:0:1") = .error .contextCorrupted := by decide
example : spanContextToString 255 2 none 1 = "ff:2:0:1" := by decide
example : spanContextToString 255 2 (some 26) 1 = "ff:2:1a:1" := by decide
example : textExtract defaultTextCodec id
    [("uber-trace-id", "nothex:1:0:1"), ("uberctx-k", "v")] =
    .error .contextCorrupted := by decide
example : textExtract defaultTextCodec id [] = .ok none := by decide
example : textExtract defaultTextCodec id [("Uberctx-Foo", "v")] =
    .ok (some ⟨none, none, none, none, [("foo", "v")], none⟩) := by decide
example : textExtract defaultTextCodec id [("uber-trace-id", "ff:2:1a:1")] =
    .ok (some ⟨some 255, some 2, some 26, some 1, [], none⟩) := by decide
example : parseBaggageHeader "a=1,b=2,malformed,c=3" none =
    some [("a", "1"), ("b", "2"), ("c", "3")] := by decide
example : parseBaggageHeader "k=v=w" (some [("z", "1")]) = some [("z", "1")] := by decide
example : textExtract defaultTextCodec id [("jaeger-debug-id", "why")] =
    .ok (some ⟨none, none, none, none, [], some "why"⟩) := by decide

/-- UTF-8 encoding of one code point (`str.encode ('utf-8')`), written
with division and remainder (equal to the usual shift-and-mask form). -/
def utf8EncodeChar (n : Nat) : List Nat :=
  if n < 0x80 then [n]
  else if n < 0x800 then [0xC0 + n / 64, 0x80 + n % 64]
  else if n < 0x10000 then
    [0xE0 + n / 4096, 0x80 + n / 64 % 64, 0x80 + n % 64]
  else
    [0xF0 + n / 262144, 0x80 + n / 4096 % 64, 0x80 + n / 64 % 64, 0x80 + n % 64]

/-- UTF-8 encoding of a character list. -/
def utf8EncodeList : List Char → List Nat
  | [] => []
  | c :: cs => utf8EncodeChar c.toNat ++ utf8EncodeList cs

/-- `str.encode ('utf-8')`. -/
def utf8Encode (s : String) : List Nat := utf8EncodeList s.data

/-- Continuation of a 2-byte UTF-8 sequence with lead byte `b`: checks
the continuation byte and rejects overlong encodings. -/
def utf8Cont2 (b : Nat) : List Nat → Option (Nat × List Nat)
  | b2 :: rest2 =>
      if 0x80 ≤ b2 ∧ b2 < 0xC0 then
        let n := (b - 0xC0) * 64 + (b2 - 0x80)
        if n < 0x80 then none else some (n, rest2)
      else none
  | [] => none

/-- Continuation of a 3-byte UTF-8 sequence: checks both continuation
bytes, rejects overlong encodings and surrogates. -/
def utf8Cont3 (b : Nat) : List Nat → Option (Nat × List Nat)
  | b2 :: b3 :: rest3 =>
      if (0x80 ≤ b2 ∧ b2 < 0xC0) ∧ (0x80 ≤ b3 ∧ b3 < 0xC0) then
        let n := (b - 0xE0) * 4096 + (b2 - 0x80) * 64 + (b3 - 0x80)
        if n < 0x800 then none
        else if 0xD800 ≤ n ∧ n < 0xE000 then none
        else some (n, rest3)
      else none
  | _ => none

/-- Continuation of a 4-byte UTF-8 sequence: checks the continuation
bytes, rejects overlong encodings and code points above U+10FFFF. -/
def utf8Cont4 (b : Nat) : List Nat → Option (Nat × List Nat)
  | b2 :: b3 :: b4 :: rest4 =>
      if (0x80 ≤ b2 ∧ b2 < 0xC0) ∧ (0x80 ≤ b3 ∧ b3 < 0xC0) ∧
         (0x80 ≤ b4 ∧ b4 < 0xC0) then
        let n := (b - 0xF0) * 262144 + (b2 - 0x80) * 4096 +
                 (b3 - 0x80) * 64 + (b4 - 0x80)
        if n < 0x10000 then none
        else if n > 0x10FFFF then none
        else some (n, rest4)
      else none
  | _ => none

/-- One code point of strict UTF-8 decoding: the decoded value and the
remaining bytes, or `none` on any malformed prefix (a lone continuation
byte, a truncated sequence, an overlong encoding, a surrogate, or a
value above U+10FFFF — exactly what Python's strict codec rejects).
A successful step always consumes at least one byte. -/
def utf8DecodeOne : List Nat → Option (Nat × List Nat)
  | [] => none
  | b :: rest =>
      if b < 0x80 then some (b, rest)
      else if b < 0xC0 then none
      else if b < 0xE0 then utf8Cont2 b rest
      else if b < 0xF0 then utf8Cont3 b rest
      else if b < 0xF8 then utf8Cont4 b rest
      else none

/-- Strict UTF-8 decoding loop.  The fuel argument is only a structural
termination device: it is always called with `fuel = length` of the
buffer, and since every successful `utf8DecodeOne` step consumes at
least one byte the `0, _ :: _` branch is unreachable from
`utf8DecodeList`. -/
def utf8DecodeGo : Nat → List Nat → Option (List Char)
  | _, [] => some []
  | 0, _ :: _ => none
  | fuel + 1, b :: rest =>
      match utf8DecodeOne (b :: rest) with
      | some (n, rest') => (utf8DecodeGo fuel rest').map fun cs => Char.ofNat n :: cs
      | none => none

/-- Strict UTF-8 decoding of a whole buffer (`bytes.decode ('utf-8')`
as a character list). -/
def utf8DecodeList (l : List Nat) : Option (List Char) :=
  utf8DecodeGo l.length l

/-- `bytes.decode ('utf-8')` as a string. -/
def utf8Decode (l : List Nat) : Option String :=
  (utf8DecodeList l).map fun cs => ⟨cs⟩

/-- Big-endian bytes of `n` in `w` bytes (the body of `struct.pack`). -/
def toBytesBE : Nat → Nat → List Nat
  | 0, _ => []
  | w + 1, n => toBytesBE w (n / 256) ++ [n % 256]

/-- Big-endian value of a byte list (the body of `struct.unpack`). -/
def fromBytesBE (l : List Nat) : Nat := l.foldl (fun a b => a * 256 + b) 0

/-- `0xFFFFFFFFFFFFFFFF`, the `max_int64` constant of `BinaryCodec.inject`. -/
def maxInt64 : Int := 0xFFFFFFFFFFFFFFFF

/-- `struct.pack ('>Q', v)`: range-checked unsigned 64-bit big-endian. -/
def packQ (v : Int) : Except PyErr (List Nat) :=
  if 0 ≤ v ∧ v ≤ maxInt64 then .ok (toBytesBE 8 v.toNat) else .error .structError

/-- `struct.pack ('B', v)`: range-checked byte; packing `None` is a
`struct.error` ("required argument is not an integer"). -/
def packB (v : Option Int) : Except PyErr (List Nat) :=
  match v with
  | some v => if 0 ≤ v ∧ v < 256 then .ok [v.toNat] else .error .structError
  | none => .error .structError

/-- `struct.pack ('>I', n)` for a (non-negative) length. -/
def packI4 (n : Nat) : Except PyErr (List Nat) :=
  if n < 2 ^ 32 then .ok (toBytesBE 4 n) else .error .structError

/-- `BinaryCodec._pack_baggage_item`: length-prefixed UTF-8 key then
length-prefixed UTF-8 value. -/
def packBaggageItem (k v : String) : Except PyErr (List Nat) :=
  let kb := utf8Encode k
  match packI4 kb.length with
  | .error e => .error e
  | .ok lk =>
      let vb := utf8Encode v
      match packI4 vb.length with
      | .error e => .error e
      | .ok lv => .ok (lk ++ kb ++ lv ++ vb)

/-- The baggage-appending loop of `BinaryCodec.inject`. -/
def packBaggageItems : List (String × String) → Except PyErr (List Nat)
  | [] => .ok []
  | (k, v) :: rest =>
      match packBaggageItem k v with
      | .error e => .error e
      | .ok b =>
          match packBaggageItems rest with
          | .error e => .error e
          | .ok bs => .ok (b ++ bs)

/-- `BinaryCodec.inject`.  The carrier is modelled as a growable byte
list, so the `isinstance (carrier, bytearray)` shape check passes; the
bytes of the fixed header and the baggage records are appended to it.
Comparing a `None` trace id against `max_int64` is a Python 3
`TypeError`.  On a 128-bit value, `(trace_id >> 64) & max_int64` and
`trace_id & max_int64` are written as division/remainder by `2 ^ 64`. -/
def binaryInject (ctx : SpanContext) (carrier : List Nat) :
    Except PyErr (List Nat) :=
  match ctx.trace_id with
  | none => .error .typeError
  | some tid =>
      let high : Int :=
        if tid > maxInt64 then Int.ofNat (tid.toNat >>> 64 % 2 ^ 64) else 0
      let low : Int :=
        if tid > maxInt64 then Int.ofNat (tid.toNat % 2 ^ 64) else tid
      match packQ high with
          | .error e => .error e
          | .ok bh =>
              match packQ low with
              | .error e => .error e
              | .ok bl =>
                  match packQ (ctx.span_id.getD 0) with
                  | .error e => .error e
                  | .ok bs =>
                      match packQ (ctx.parent_id.getD 0) with
                      | .error e => .error e
                      | .ok bp =>
                          match packB ctx.flags with
                          | .error e => .error e
                          | .ok bf =>
                              match packI4 ctx.baggage.length with
                              | .error e => .error e
                              | .ok bc =>
                                  match packBaggageItems ctx.baggage with
                                  | .error e => .error e
                                  | .ok items =>
                                      .ok (carrier ++ (bh ++ bl ++ bs ++ bp ++
                                        bf ++ bc ++ items))

/-- Python slicing `data[k:]` where `k` may be negative (a negative index
counts from the end of the buffer, clamped at its start). -/
def pySliceFrom (l : List Nat) (k : Int) : List Nat :=
  if 0 ≤ k then l.drop k.toNat
  else l.drop ((l.length + k).toNat)

/-- `BinaryCodec._read_kv`: a signed 4-byte big-endian length (format
`'>i'`), then that many bytes decoded as UTF-8.  A negative length makes
`'c' * data_len` the empty format string and `data[4:4+data_len]` the
empty slice, so it yields the empty string and a negative cursor
advance, with no error. -/
def readKV (data : List Nat) : Except PyErr (String × Int) :=
  if data.length < 4 then .error .structError
  else
    let u := fromBytesBE (data.take 4)
    let len : Int := if u < 2 ^ 31 then (u : Int) else (u : Int) - 2 ^ 32
    if len < 0 then .ok ("", 4 + len)
    else if ((data.length : Int) - 4) < len then .error .structError
    else
      match utf8Decode ((data.drop 4).take len.toNat) with
      | some s => .ok (s, 4 + len)
      | none => .error .unicodeDecodeError

/-- `BinaryCodec._unpack_baggage_item`: read the key, advance by its
consumed length, read the value, return both and the total advance. -/
def unpackBaggageItem (data : List Nat) :
    Except PyErr (String × String × Int) :=
  match readKV data with
  | .error e => .error e
  | .ok (k, r1) =>
      match readKV (pySliceFrom data r1) with
      | .error e => .error e
      | .ok (v, r2) => .ok (k, v, r1 + r2)

/-- The baggage-reading loop of `BinaryCodec.extract`: `baggage_count`
records, advancing the cursor by each record's consumed length. -/
def readBaggageItems :
    Nat → List Nat → List (String × String) →
    Except PyErr (List (String × String))
  | 0, _, acc => .ok acc
  | n + 1, data, acc =>
      match unpackBaggageItem data with
      | .error e => .error e
      | .ok (k, v, br) =>
          readBaggageItems n (pySliceFrom data br) (dictSet acc k v)

/-- `BinaryCodec.extract`: unpack the fixed 37-byte header
(`'>QQQQBI'`, a `struct.error` when the carrier is shorter), recombine a
128-bit trace id when the high word is non-zero (`(high << 64) | low`,
written as `high * 2 ^ 64 + low`, equal since `low < 2 ^ 64`), then read
`baggage_count` records from the tail. -/
def binaryExtract (carrier : List Nat) : Except PyErr SpanContext :=
  if carrier.length < 37 then .error .structError
  else
    let hdr := carrier.take 37
    let high := fromBytesBE (hdr.take 8)
    let low := fromBytesBE ((hdr.drop 8).take 8)
    let span := fromBytesBE ((hdr.drop 16).take 8)
    let parent := fromBytesBE ((hdr.drop 24).take 8)
    let flags := fromBytesBE ((hdr.drop 32).take 1)
    let count := fromBytesBE (hdr.drop 33)
    let trace : Nat := if high ≠ 0 then high * 2 ^ 64 + low else low
    match (if count ≠ 0 then readBaggageItems count (carrier.drop 37) []
           else .ok []) with
    | .error e => .error e
    | .ok bg =>
        .ok (mkSpanContext (some (Int.ofNat trace)) (some (Int.ofNat span))
          (some (Int.ofNat parent)) (some (Int.ofNat flags)) (some bg) none)

example : utf8Decode (utf8Encode "héllo✓") = some "héllo✓" := by decide
example : binaryExtract [] = .error .structError := by decide
example : (binaryInject ⟨some 0x0102030405060708090A0B0C0D0E0F10, some 2,
    none, some 1, [("k", "v")], none⟩ []).bind binaryExtract =
    .ok ⟨some 0x0102030405060708090A0B0C0D0E0F10, some 2, none, some 1,
         [("k", "v")], none⟩ := by decide
example : (binaryInject ⟨some 0xDEADBEEF, some 2, some 3, some 1, [], none⟩
    []).bind binaryExtract =
    .ok ⟨some 0xDEADBEEF, some 2, some 3, some 1, [], none⟩ := by decide
example : binaryInject ⟨some 5, some 2, some 3, some 1, [], none⟩ [] =
    .ok (toBytesBE 8 0 ++ toBytesBE 8 5 ++ toBytesBE 8 2 ++ toBytesBE 8 3 ++
         [1] ++ toBytesBE 4 0 ++ []) := by decide

/-- The four fields a Zipkin carrier may hold.  The outer `Option` is
presence (a missing mapping key / a missing attribute); the inner
`Option Int` is the Python value, which may itself be `None`. -/
structure ZFields : Type where
  trace_id : Option (Option Int)
  span_id : Option (Option Int)
  parent_id : Option (Option Int)
  traceflags : Option (Option Int)
deriving DecidableEq, Repr

/-- The two carrier shapes `ZipkinCodec.extract` supports: a string-keyed
mapping (`dict.get` defaults a missing key to `None`) or an
attribute-bearing object (`hasattr`/`getattr`). -/
inductive ZipkinCarrier : Type where
  | dict (f : ZFields)
  | obj (f : ZFields)
deriving DecidableEq, Repr

/-- `ZipkinCodec.inject`: write the four named fields onto the mapping
carrier, each with the context's value as-is (`None` included). -/
def zipkinInject (ctx : SpanContext) (c : ZFields) : ZFields :=
  { c with
    trace_id := some ctx.trace_id
    span_id := some ctx.span_id
    parent_id := some ctx.parent_id
    traceflags := some ctx.flags }

/-- Tail of `ZipkinCodec.extract` shared by both carrier shapes: absent
when `trace_id` is falsy, otherwise a context built from the four
values. -/
def zipkinFinish (t s p fl : Option Int) : Except PyErr (Option SpanContext) :=
  if pyFalsyInt t then .ok none
  else .ok (some (mkSpanContext t s p fl none none))

/-- `ZipkinCodec.extract`: on a mapping, `carrier.get (...)` turns a
missing key into `None`; on an attribute carrier, the first of the four
attributes found missing raises `InvalidCarrierException` naming it. -/
def zipkinExtract (carrier : ZipkinCarrier) : Except PyErr (Option SpanContext) :=
  match carrier with
  | .dict f =>
      zipkinFinish f.trace_id.join f.span_id.join f.parent_id.join
        f.traceflags.join
  | .obj f =>
      match f.trace_id with
      | none => .error (.invalidCarrier "carrier has no trace_id")
      | some t =>
          match f.span_id with
          | none => .error (.invalidCarrier "carrier has no span_id")
          | some s =>
              match f.parent_id with
              | none => .error (.invalidCarrier "carrier has no parent_id")
              | some p =>
                  match f.traceflags with
                  | none => .error (.invalidCarrier "carrier has no traceflags")
                  | some fl => zipkinFinish t s p fl

/-- `B3Codec.trace_header`. -/
def b3TraceHeader : String := "X-B3-TraceId"

/-- `B3Codec.span_header`. -/
def b3SpanHeader : String := "X-B3-SpanId"

/-- `B3Codec.parent_span_header`. -/
def b3ParentSpanHeader : String := "X-B3-ParentSpanId"

/-- `B3Codec.sampled_header`. -/
def b3SampledHeader : String := "X-B3-Sampled"

/-- `B3Codec.flags_header`. -/
def b3FlagsHeader : String := "X-B3-Flags"

/-- `header_to_hex` on a string value (the `isinstance (header, str)`
check passes for the typed model; `int (header, 16)` failing raises
`SpanContextCorruptedException`). -/
def headerToHex (header : String) : Except PyErr Int :=
  match parseHexPy header with
  | some v => .ok v
  | none => .error .contextCorrupted

/-- `B3Codec.inject`: the sequence of header writes.  Formatting a `None`
id or testing flag bits of a `None` flags value is a Python 3
`TypeError`. -/
def b3Inject (generate128 : Bool) (ctx : SpanContext) :
    Except PyErr (List (String × String)) :=
  match ctx.trace_id with
  | none => .error .typeError
  | some tid =>
      let w1 := [(b3TraceHeader,
        if generate128 then zfill (intToHex tid) 32 else zfill (intToHex tid) 16)]
      match ctx.span_id with
      | none => .error .typeError
      | some sid =>
          let w2 := w1 ++ [(b3SpanHeader, zfill (intToHex sid) 16)]
          let w3 := w2 ++
            (match ctx.parent_id with
             | none => []
             | some p => [(b3ParentSpanHeader, zfill (intToHex p) 16)])
          match ctx.flags with
          | none => .error .typeError
          | some fl =>
              if Int.land fl DEBUG_FLAG = DEBUG_FLAG then
                .ok (w3 ++ [(b3FlagsHeader, "1")])
              else if Int.land fl SAMPLED_FLAG = SAMPLED_FLAG then
                .ok (w3 ++ [(b3SampledHeader, "1")])
              else .ok w3

/-- The scan loop of `B3Codec.extract`: an entry whose value is `None` is
skipped (`continue`) before any key matching; then case-insensitive key
dispatch, hex-parsing the id headers and OR-ing the flag bits for a
`Sampled`/`Flags` header whose value is exactly `"1"`. -/
def b3ExtractLoop :
    List (String × Option String) →
    Option Int × Option Int × Option Int × Int →
    Except PyErr (Option Int × Option Int × Option Int × Int)
  | [], st => .ok st
  | (_, none) :: rest, st => b3ExtractLoop rest st
  | (k, some v) :: rest, st =>
      match st with
      | (t, s, p, fl) =>
          let lower_key := pyLower k
          if lower_key = pyLower b3TraceHeader then
            match headerToHex v with
            | .error e => .error e
            | .ok n => b3ExtractLoop rest (some n, s, p, fl)
          else if lower_key = pyLower b3SpanHeader then
            match headerToHex v with
            | .error e => .error e
            | .ok n => b3ExtractLoop rest (t, some n, p, fl)
          else if lower_key = pyLower b3ParentSpanHeader then
            match headerToHex v with
            | .error e => .error e
            | .ok n => b3ExtractLoop rest (t, s, some n, fl)
          else if lower_key = pyLower b3SampledHeader ∧ v = "1" then
            b3ExtractLoop rest (t, s, p, Int.lor fl SAMPLED_FLAG)
          else if lower_key = pyLower b3FlagsHeader ∧ v = "1" then
            b3ExtractLoop rest (t, s, p, Int.lor fl DEBUG_FLAG)
          else b3ExtractLoop rest (t, s, p, fl)

/-- `B3Codec.extract`: scan all headers, then absent unless both trace id
and span id were set to truthy values. -/
def b3Extract (carrier : List (String × Option String)) :
    Except PyErr (Option SpanContext) :=
  match b3ExtractLoop carrier (none, none, none, 0) with
  | .error e => .error e
  | .ok (t, s, p, fl) =>
      if pyFalsyInt t || pyFalsyInt s then .ok none
      else .ok (some (mkSpanContext t s p (some fl) none none))

example : zipkinExtract (.obj ⟨some (some 1), some (some 2), none, some (some 0)⟩) =
    .error (.invalidCarrier "carrier has no parent_id") := by decide
example : zipkinExtract (.dict ⟨some (some 1), some (some 2), none, some (some 0)⟩) =
    .ok (some ⟨some 1, some 2, none, some 0, [], none⟩) := by decide
example : zipkinExtract (.dict ⟨some (some 0), some (some 2), none, none⟩) =
    .ok none := by decide
example : b3Inject false ⟨some 255, some 2, none, some 3, [], none⟩ =
    .ok [("X-B3-TraceId", "00000000000000ff"), ("X-B3-SpanId", "0000000000000002"),
         ("X-B3-Flags", "1")] := by decide
example : b3Inject false ⟨some 255, some 2, some 1, some 1, [], none⟩ =
    .ok [("X-B3-TraceId", "00000000000000ff"), ("X-B3-SpanId", "0000000000000002"),
         ("X-B3-ParentSpanId", "0000000000000001"), ("X-B3-Sampled", "1")] := by decide
example : b3Extract [("X-B3-TraceId", none)] = .ok none := by decide
example : b3Extract [("x-b3-traceid", some "ff"), ("X-B3-SpanId", some "2"),
    ("X-B3-Flags", some "1")] =
    .ok (some ⟨some 255, some 2, none, some 2, [], none⟩) := by decide
example : b3Extract [("X-B3-TraceId", some "zz")] = .error .contextCorrupted := by decide

theorem toBytesBE_length (w n : Nat) : (toBytesBE w n).length = w := by
  induction w generalizing n with
  | zero => rfl
  | succ w ih => simp [toBytesBE, ih]

theorem fromBytesBE_toBytesBE (w n : Nat) (h : n < 256 ^ w) :
    fromBytesBE (toBytesBE w n) = n := by
  induction w generalizing n with
  | zero => simp at h; simp [h, toBytesBE, fromBytesBE]
  | succ w ih =>
      have hdiv : n / 256 < 256 ^ w := by
        rw [Nat.div_lt_iff_lt_mul (by norm_num)]
        calc n < 256 ^ (w + 1) := h
        _ = 256 ^ w * 256 := by rw [Nat.pow_succ]
      simp only [toBytesBE, fromBytesBE] at ih ⊢
      rw [List.foldl_append, ih _ hdiv]
      simp only [List.foldl_cons, List.foldl_nil]
      omega

theorem utf8EncodeChar_length_pos (n : Nat) : 0 < (utf8EncodeChar n).length := by
  simp only [utf8EncodeChar]
  split_ifs <;> simp

theorem utf8DecodeOne_encodeChar (c : Char) (rest : List Nat) :
    utf8DecodeOne (utf8EncodeChar c.toNat ++ rest) = some (c.toNat, rest) := by
  have hval : c.toNat < 0xd800 ∨ (0xdfff < c.toNat ∧ c.toNat < 0x110000) := c.valid
  set n := c.toNat with hn
  by_cases h1 : n < 0x80
  · have henc : utf8EncodeChar n = [n] := by simp [utf8EncodeChar, h1]
    rw [henc, List.singleton_append]
    simp only [utf8DecodeOne, if_pos h1]
  · by_cases h2 : n < 0x800
    · have henc : utf8EncodeChar n = [0xC0 + n / 64, 0x80 + n % 64] := by
        simp [utf8EncodeChar, h1, h2]
      have e1 : ¬(0xC0 + n / 64 < 0x80) := by omega
      have e2 : ¬(0xC0 + n / 64 < 0xC0) := by omega
      have e3 : 0xC0 + n / 64 < 0xE0 := by omega
      have e4 : 0x80 ≤ 0x80 + n % 64 ∧ 0x80 + n % 64 < 0xC0 := by omega
      have e5 : (0xC0 + n / 64 - 0xC0) * 64 + (0x80 + n % 64 - 0x80) = n := by
        omega
      rw [henc, List.cons_append, List.cons_append, List.nil_append]
      simp only [utf8DecodeOne, if_neg e1, if_neg e2, if_pos e3, utf8Cont2,
        if_pos e4, e5, if_neg h1]
    · by_cases h3 : n < 0x10000
      · have henc : utf8EncodeChar n =
            [0xE0 + n / 4096, 0x80 + n / 64 % 64, 0x80 + n % 64] := by
          simp [utf8EncodeChar, h1, h2, h3]
        have e1 : ¬(0xE0 + n / 4096 < 0x80) := by omega
        have e2 : ¬(0xE0 + n / 4096 < 0xC0) := by omega
        have e3 : ¬(0xE0 + n / 4096 < 0xE0) := by omega
        have e4 : 0xE0 + n / 4096 < 0xF0 := by omega
        have e5 : (0x80 ≤ 0x80 + n / 64 % 64 ∧ 0x80 + n / 64 % 64 < 0xC0) ∧
            (0x80 ≤ 0x80 + n % 64 ∧ 0x80 + n % 64 < 0xC0) := by omega
        have e6 : (0xE0 + n / 4096 - 0xE0) * 4096 +
            (0x80 + n / 64 % 64 - 0x80) * 64 + (0x80 + n % 64 - 0x80) = n := by
          omega
        have e8 : ¬(0xD800 ≤ n ∧ n < 0xE000) := by omega
        rw [henc, List.cons_append, List.cons_append, List.cons_append,
          List.nil_append]
        simp only [utf8DecodeOne, if_neg e1, if_neg e2, if_neg e3, if_pos e4,
          utf8Cont3, if_pos e5, e6, if_neg h2, if_neg e8]
      · have henc : utf8EncodeChar n = [0xF0 + n / 262144,
            0x80 + n / 4096 % 64, 0x80 + n / 64 % 64, 0x80 + n % 64] := by
          simp [utf8EncodeChar, h1, h2, h3]
        have e1 : ¬(0xF0 + n / 262144 < 0x80) := by omega
        have e2 : ¬(0xF0 + n / 262144 < 0xC0) := by omega
        have e3 : ¬(0xF0 + n / 262144 < 0xE0) := by omega
        have e4 : ¬(0xF0 + n / 262144 < 0xF0) := by omega
        have e5 : 0xF0 + n / 262144 < 0xF8 := by omega
        have e6 : (0x80 ≤ 0x80 + n / 4096 % 64 ∧ 0x80 + n / 4096 % 64 < 0xC0) ∧
            (0x80 ≤ 0x80 + n / 64 % 64 ∧ 0x80 + n / 64 % 64 < 0xC0) ∧
            (0x80 ≤ 0x80 + n % 64 ∧ 0x80 + n % 64 < 0xC0) := by omega
        have e7 : (0xF0 + n / 262144 - 0xF0) * 262144 +
            (0x80 + n / 4096 % 64 - 0x80) * 4096 +
            (0x80 + n / 64 % 64 - 0x80) * 64 + (0x80 + n % 64 - 0x80) = n := by
          omega
        have e9 : ¬(n > 0x10FFFF) := by omega
        rw [henc, List.cons_append, List.cons_append, List.cons_append,
          List.cons_append, List.nil_append]
        simp only [utf8DecodeOne, if_neg e1, if_neg e2, if_neg e3, if_neg e4,
          if_pos e5, utf8Cont4, if_pos e6, e7, if_neg h3, if_neg e9]

theorem utf8DecodeGo_encodeList (cs : List Char) (fuel : Nat)
    (h : (utf8EncodeList cs).length ≤ fuel) :
    utf8DecodeGo fuel (utf8EncodeList cs) = some cs := by
  induction cs generalizing fuel with
  | nil => cases fuel <;> rfl
  | cons c cs ih =>
      have hlen : 0 < (utf8EncodeChar c.toNat).length := utf8EncodeChar_length_pos _
      obtain ⟨b, bs, hb⟩ : ∃ b bs, utf8EncodeChar c.toNat = b :: bs := by
        cases hEnc : utf8EncodeChar c.toNat with
        | nil => rw [hEnc] at hlen; simp at hlen
        | cons b bs => exact ⟨b, bs, rfl⟩
      have hlist : utf8EncodeList (c :: cs) =
          b :: (bs ++ utf8EncodeList cs) := by
        rw [utf8EncodeList, hb, List.cons_append]
      have hfuel : ∃ f, fuel = f + 1 := by
        rw [hlist] at h
        cases fuel with
        | zero => simp at h
        | succ f => exact ⟨f, rfl⟩
      obtain ⟨f, rfl⟩ := hfuel
      have hstep := utf8DecodeOne_encodeChar c (utf8EncodeList cs)
      rw [hb, List.cons_append] at hstep
      have hle : (utf8EncodeList cs).length ≤ f := by
        rw [hlist] at h
        simp only [List.length_cons, List.length_append] at h
        omega
      rw [hlist, utf8DecodeGo, hstep]
      show Option.map (fun l => Char.ofNat c.toNat :: l)
        (utf8DecodeGo f (utf8EncodeList cs)) = some (c :: cs)
      rw [ih _ hle, Char.ofNat_toNat, Option.map_some']

theorem utf8DecodeList_encodeList (cs : List Char) :
    utf8DecodeList (utf8EncodeList cs) = some cs :=
  utf8DecodeGo_encodeList cs _ (Nat.le_refl _)

theorem utf8Decode_utf8Encode (s : String) : utf8Decode (utf8Encode s) = some s := by
  simp only [utf8Decode, utf8Encode, utf8DecodeList_encodeList, Option.map_some']

/-- The list-unwrapping step of the combined-string decoder, for stating
claim C5: a single-element sequence stands for its one element. -/
def c5Unwrap (v : PyVal) : PyVal :=
  match v with
  | .vList [x] => x
  | v => v

/-- Claim C5's error condition on the split parts, stated as a flat
disjunction following the claim's words: a field count other than 4, a
non-hex part, or a minimum violation. -/
def partsCorruptCond (parts : List String) : Bool :=
  decide (parts.length ≠ 4) ||
  parts.any (fun p => (parseHexPy p).isNone) ||
  (match parts.map parseHexPy with
   | [some t, some sp, some pp, some f] =>
       decide (t < 1) || decide (sp < 1) || decide (pp < 0) || decide (f < 0)
   | _ => false)

/-- Claim C5's full error condition: more than one sequence element, a
non-string payload, or a corrupt combined string. -/
def c5ErrorCond (v : PyVal) : Bool :=
  (match v with
   | .vList l => decide (l.length > 1)
   | _ => false) ||
  (match c5Unwrap v with
   | .vStr s => partsCorruptCond (pySplit s ':')
   | _ => true)

example : parseHexPy "1f" = some 31 := by decide
example : parseHexPy "0x1f" = some 31 := by decide
example : parseHexPy " -2 " = some (-2) := by decide
example : parseHexPy "nothex" = none := by decide
example : parseHexPy "" = none := by decide
example : parseHexPy "1_0" = some 16 := by decide
example : parseHexPy "1__0" = none := by decide
example : parseHexPy "10_" = none := by decide
example : natToHex 255 = "ff" := by decide
example : zfill "-5" 4 = "-005" := by decide
example : zfill (natToHex 26) 4 = "001a" := by decide

theorem spanContextFromParts_char (parts : List String) :
    (∀ e, spanContextFromParts parts = .error e → e = PyErr.contextCorrupted) ∧
    ((spanContextFromParts parts).isOk = true ↔ partsCorruptCond parts = false) ∧
    (∀ t sp p f, spanContextFromParts parts = .ok (t, sp, p, f) →
      parts.map parseHexPy = [some t, some sp, some (p.getD 0), some f] ∧
      p ≠ some 0) := by
  rcases parts with _ | ⟨p0, _ | ⟨p1, _ | ⟨p2, _ | ⟨p3, _ | ⟨p4, rest⟩⟩⟩⟩⟩
  · simp [spanContextFromParts, partsCorruptCond, Except.isOk, Except.toBool]
  · simp [spanContextFromParts, partsCorruptCond, Except.isOk, Except.toBool]
  · simp [spanContextFromParts, partsCorruptCond, Except.isOk, Except.toBool]
  · simp [spanContextFromParts, partsCorruptCond, Except.isOk, Except.toBool]
  case cons.cons.cons.cons.cons =>
    simp [spanContextFromParts, partsCorruptCond, Except.isOk, Except.toBool]
  rcases h0 : parseHexPy p0 with - | t0 <;>
    rcases h1 : parseHexPy p1 with - | t1 <;>
    rcases h2 : parseHexPy p2 with - | t2 <;>
    rcases h3 : parseHexPy p3 with - | t3 <;>
    simp only [spanContextFromParts, partsCorruptCond, h0, h1, h2, h3,
      List.map_cons, List.map_nil, List.any_cons, List.any_nil,
      Option.isNone_none, Option.isNone_some, Except.isOk, Except.toBool] <;>
    try simp
  by_cases hmin : t0 < 1 ∨ t1 < 1 ∨ t2 < 0 ∨ t3 < 0
  · simp only [if_pos hmin, Except.isOk, Except.toBool, Bool.false_eq_true,
      false_iff]
    refine ⟨fun e he => (Except.error.inj he).symm, ?_,
      fun t sp p f h' => absurd h' (by simp)⟩
    intro hfalse
    rcases hmin with h | h | h | h <;> omega
  · push_neg at hmin
    obtain ⟨m0, m1, m2, m3⟩ := hmin
    have hcond : ¬(t0 < 1 ∨ t1 < 1 ∨ t2 < 0 ∨ t3 < 0) := by omega
    simp only [if_neg hcond, Except.isOk, Except.toBool, true_iff]
    refine ⟨fun e he => absurd he (by simp), ?_, ?_⟩
    · exact ⟨⟨⟨m0, m1⟩, m2⟩, m3⟩
    · intro t sp p f h'
      simp only [Except.ok.injEq, Prod.mk.injEq] at h'
      obtain ⟨rfl, rfl, hpp, rfl⟩ := h'
      subst hpp
      constructor
      · by_cases hz : t2 = 0 <;> simp [hz]
      · by_cases hz : t2 = 0 <;> simp [hz]

/-- C5: The combined-string decoder accepts a string or a single-element
sequence containing one string, splits on `:` requiring exactly 4 parts,
parses each part as hex, and raises `ContextCorruptedError` exactly when
the input has more than one sequence element, is not a string, has a
field count other than 4, contains a non-hex part, or yields
`trace_id < 1`, `span_id < 1`, `parent_id < 0` or `flags < 0`; on
success a `parent_id` of 0 is mapped to absent. -/
theorem span_context_from_string_claim (v : PyVal) :
    (∀ e, spanContextFromString v = .error e → e = PyErr.contextCorrupted) ∧
    ((spanContextFromString v).isOk = true ↔ c5ErrorCond v = false) ∧
    (∀ t s p f, spanContextFromString v = .ok (t, s, p, f) →
      ∃ str, c5Unwrap v = .vStr str ∧
        (pySplit str ':').map parseHexPy =
          [some t, some s, some (p.getD 0), some f] ∧
        p ≠ some 0) := by
  rcases v with s | l | _
  · have h := spanContextFromParts_char (pySplit s ':')
    refine ⟨h.1, h.2.1, fun t sp p f h' => ⟨s, rfl, h.2.2 t sp p f h'⟩⟩
  · rcases l with _ | ⟨x, _ | ⟨y, rest⟩⟩
    · exact ⟨fun e he => (Except.error.inj he).symm,
        by simp [spanContextFromString, spanContextFromStr, c5ErrorCond,
          c5Unwrap, Except.isOk, Except.toBool],
        fun t sp p f h' => absurd h' (by simp [spanContextFromString,
          spanContextFromStr])⟩
    · rcases x with s | lx | _
      · have h := spanContextFromParts_char (pySplit s ':')
        exact ⟨h.1, h.2.1, fun t sp p f h' => ⟨s, rfl, h.2.2 t sp p f h'⟩⟩
      · exact ⟨fun e he => (Except.error.inj he).symm,
          by simp [spanContextFromString, spanContextFromStr, c5ErrorCond,
            c5Unwrap, Except.isOk, Except.toBool],
          fun t sp p f h' => absurd h' (by simp [spanContextFromString,
            spanContextFromStr])⟩
      · exact ⟨fun e he => (Except.error.inj he).symm,
          by simp [spanContextFromString, spanContextFromStr, c5ErrorCond,
            c5Unwrap, Except.isOk, Except.toBool],
          fun t sp p f h' => absurd h' (by simp [spanContextFromString,
            spanContextFromStr])⟩
    · refine ⟨fun e he => ?_, ?_, fun t sp p f h' => ?_⟩
      · have : spanContextFromString (.vList (x :: y :: rest)) =
            .error .contextCorrupted := by
          simp [spanContextFromString]
        rw [this] at he
        exact (Except.error.inj he).symm
      · have : spanContextFromString (.vList (x :: y :: rest)) =
            .error .contextCorrupted := by
          simp [spanContextFromString]
        simp [this, c5ErrorCond, Except.isOk, Except.toBool]
      · have : spanContextFromString (.vList (x :: y :: rest)) =
            .error .contextCorrupted := by
          simp [spanContextFromString]
        rw [this] at h'
        exact absurd h' (by simp)
  · exact ⟨fun e he => (Except.error.inj he).symm,
      by simp [spanContextFromString, spanContextFromStr, c5ErrorCond,
        c5Unwrap, Except.isOk, Except.toBool],
      fun t sp p f h' => absurd h' (by simp [spanContextFromString,
        spanContextFromStr])⟩

theorem span_context_from_string_claim_witness :
    (pySplit "1:2:0:3" ':').map parseHexPy =
      [some 1, some 2, some ((none : Option Int).getD 0), some 3] ∧
    (none : Option Int) ≠ some 0 := by
  have h := (span_context_from_string_claim (.vStr "1:2:0:3")).2.2
    1 2 none 3 (by decide)
  obtain ⟨str, hstr, hmap, hp⟩ := h
  have hs : str = "1:2:0:3" := by
    have : c5Unwrap (.vStr "1:2:0:3") = .vStr "1:2:0:3" := rfl
    rw [this] at hstr
    exact (PyVal.vStr.inj hstr).symm
  rw [hs] at hmap
  exact ⟨hmap, hp⟩

/-- C7: The aggregated baggage header parser splits the value on commas,
splits each part on every `=`, keeps a pair only when that yields exactly
two tokens and silently skips the rest: `"a=1,b=2,malformed,c=3"` parses
to `{a:1, b:2, c:3}`, and a pair whose value contains a literal `=` is
dropped rather than split on the first `=`. -/
theorem parse_baggage_header_claim :
    parseBaggageHeader "a=1,b=2,malformed,c=3" none =
      some [("a", "1"), ("b", "2"), ("c", "3")] ∧
    (∀ b, parseBaggageHeader "k=v=w" b = b) ∧
    parseBaggageHeader "k=v1,k2=v2=x" none = some [("k", "v1")] :=
  ⟨by decide, fun b => rfl, by decide⟩

theorem b3ExtractLoop_skip (k : String)
    (pre post : List (String × Option String))
    (st : Option Int × Option Int × Option Int × Int) :
    b3ExtractLoop (pre ++ (k, none) :: post) st =
      b3ExtractLoop (pre ++ post) st := by
  induction pre generalizing st with
  | nil => rfl
  | cons e pre ih =>
      obtain ⟨k', v'⟩ := e
      cases v' with
      | none =>
          simp only [List.cons_append, b3ExtractLoop]
          exact ih st
      | some v =>
          obtain ⟨t, s, p, fl⟩ := st
          simp only [List.cons_append, b3ExtractLoop]
          repeat' split
          all_goals first | rfl | exact ih _

/-- C10: `B3Codec.extract` skips every carrier entry whose value is the
none/absent value before any key matching or hex parsing: an entry with
a `None` value is a no-op wherever it occurs, and the carrier
`{'X-B3-TraceId': None}` neither raises nor sets any field — extract
returns absent. -/
theorem b3_extract_skips_none_values :
    (∀ (pre post : List (String × Option String)) (k : String),
        b3Extract (pre ++ (k, none) :: post) = b3Extract (pre ++ post)) ∧
    b3Extract [("X-B3-TraceId", none)] = .ok none := by
  constructor
  · intro pre post k
    unfold b3Extract
    rw [b3ExtractLoop_skip]
  · decide

/-- C8: `ZipkinCodec.extract` on a mapping carrier treats any missing
field as absent without error, while on an attribute-bearing carrier it
raises a `CarrierShapeError` naming the first missing attribute among
`trace_id, span_id, parent_id, traceflags`; on either shape it returns
absent whenever `trace_id` is falsy (zero or absent). -/
theorem zipkin_extract_claim (t s p fl : Option (Option Int)) :
    ((zipkinExtract (.dict ⟨t, s, p, fl⟩)).isOk = true) ∧
    (zipkinExtract (.dict ⟨t, s, p, fl⟩) = .ok none ↔
      pyFalsyInt t.join = true) ∧
    (zipkinExtract (.obj ⟨t, s, p, fl⟩) =
      match t, s, p, fl with
      | none, _, _, _ => .error (.invalidCarrier "carrier has no trace_id")
      | some _, none, _, _ => .error (.invalidCarrier "carrier has no span_id")
      | some _, some _, none, _ =>
          .error (.invalidCarrier "carrier has no parent_id")
      | some _, some _, some _, none =>
          .error (.invalidCarrier "carrier has no traceflags")
      | some t', some s', some p', some fl' => zipkinFinish t' s' p' fl') ∧
    (∀ t' s' p' fl', zipkinFinish t' s' p' fl' = .ok none ↔
      pyFalsyInt t' = true) := by
  refine ⟨?_, ?_, ?_, ?_⟩
  · simp only [zipkinExtract, zipkinFinish, Except.isOk, Except.toBool]
    split
    · rfl
    · rename_i x a heq
      split at heq <;> simp at heq
  · simp only [zipkinExtract, zipkinFinish, Option.join]
    by_cases h : pyFalsyInt (t.bind fun a => a) = true <;> simp [h]
  · cases t <;> cases s <;> cases p <;> cases fl <;> rfl
  · intro t' s' p' fl'
    by_cases h : pyFalsyInt t' = true <;> simp [zipkinFinish, h]

theorem zipkin_extract_claim_witness :
    zipkinExtract (.obj ⟨some (some 1), some (some 2), none,
        some (some 0)⟩) =
      .error (.invalidCarrier "carrier has no parent_id") :=
  (zipkin_extract_claim (some (some 1)) (some (some 2)) none
    (some (some 0))).2.2.1

/-- C6: `B3Codec.inject` emits flag headers mutually exclusively with
DEBUG taking priority: with the DEBUG bit set (even with SAMPLED also
set) it writes only `X-B3-Flags: 1` and never `X-B3-Sampled`; otherwise
with the SAMPLED bit set it writes only `X-B3-Sampled: 1`; otherwise it
writes neither flag header. -/
theorem b3_inject_flag_precedence (g : Bool) (ctx : SpanContext) (fl : Int)
    (hf : ctx.flags = some fl) (W : List (String × String))
    (hw : b3Inject g ctx = .ok W) :
    (Int.land fl DEBUG_FLAG = DEBUG_FLAG →
      ("X-B3-Flags", "1") ∈ W ∧ ∀ v, ("X-B3-Sampled", v) ∉ W) ∧
    (Int.land fl DEBUG_FLAG ≠ DEBUG_FLAG →
      Int.land fl SAMPLED_FLAG = SAMPLED_FLAG →
      ("X-B3-Sampled", "1") ∈ W ∧ ∀ v, ("X-B3-Flags", v) ∉ W) ∧
    (Int.land fl DEBUG_FLAG ≠ DEBUG_FLAG →
      Int.land fl SAMPLED_FLAG ≠ SAMPLED_FLAG →
      (∀ v, ("X-B3-Flags", v) ∉ W) ∧ ∀ v, ("X-B3-Sampled", v) ∉ W) := by
  rcases ht : ctx.trace_id with - | tid
  · simp [b3Inject, ht] at hw
  rcases hs : ctx.span_id with - | sid
  · simp [b3Inject, ht, hs] at hw
  simp only [b3Inject, ht, hs, hf] at hw
  by_cases hd : Int.land fl DEBUG_FLAG = DEBUG_FLAG
  · rw [if_pos hd] at hw
    obtain rfl := (Except.ok.inj hw).symm
    refine ⟨fun _ => ⟨?_, ?_⟩, fun hnd _ => absurd hd hnd,
      fun hnd _ => absurd hd hnd⟩
    · rcases ctx.parent_id with - | pid <;> simp [b3FlagsHeader]
    · intro v
      rcases ctx.parent_id with - | pid <;>
        simp [b3TraceHeader, b3SpanHeader, b3ParentSpanHeader, b3FlagsHeader]
  · rw [if_neg hd] at hw
    by_cases hsmp : Int.land fl SAMPLED_FLAG = SAMPLED_FLAG
    · rw [if_pos hsmp] at hw
      obtain rfl := (Except.ok.inj hw).symm
      refine ⟨fun hd' => absurd hd' hd, fun _ _ => ⟨?_, ?_⟩,
        fun _ hns => absurd hsmp hns⟩
      · rcases ctx.parent_id with - | pid <;> simp [b3SampledHeader]
      · intro v
        rcases ctx.parent_id with - | pid <;>
          simp [b3TraceHeader, b3SpanHeader, b3ParentSpanHeader,
            b3SampledHeader]
    · rw [if_neg hsmp] at hw
      obtain rfl := (Except.ok.inj hw).symm
      refine ⟨fun hd' => absurd hd' hd, fun _ hs' => absurd hs' hsmp,
        fun _ _ => ⟨?_, ?_⟩⟩
      · intro v
        rcases ctx.parent_id with - | pid <;>
          simp [b3TraceHeader, b3SpanHeader, b3ParentSpanHeader]
      · intro v
        rcases ctx.parent_id with - | pid <;>
          simp [b3TraceHeader, b3SpanHeader, b3ParentSpanHeader]

theorem b3_inject_flag_precedence_witness :
    ("X-B3-Flags", "1") ∈
        [("X-B3-TraceId", zfill (intToHex 255) 16),
         ("X-B3-SpanId", zfill (intToHex 2) 16), ("X-B3-Flags", "1")] ∧
    ∀ v, ("X-B3-Sampled", v) ∉
        [("X-B3-TraceId", zfill (intToHex 255) 16),
         ("X-B3-SpanId", zfill (intToHex 2) 16), ("X-B3-Flags", "1")] :=
  (b3_inject_flag_precedence false
    ⟨some 255, some 2, none, some 3, [], none⟩ 3 rfl _ rfl).1 (by decide)

/-- C9 counterexample: the claim says the baggage key preserves the
character case of the header-name remainder, but `TextCodec.extract`
lowercases it: `uberctx-Foo` yields baggage key `foo`, not `Foo`. -/
theorem text_extract_baggage_key_case_cex :
    textExtract defaultTextCodec id [("uberctx-Foo", "v")] =
      .ok (some ⟨none, none, none, none, [("foo", "v")], none⟩) ∧
    ¬ ("foo" : String) = "Foo" :=
  ⟨by decide, by decide⟩

/-- C9 (amended): for a carrier entry whose key starts with the baggage
prefix (matched case-insensitively), `TextCodec.extract` stores a baggage
entry whose key is the lowercased remainder of the header name after the
prefix (the value percent-decoded only when the encoding toggle is on). -/
theorem text_extract_baggage_key_lowercased (cfg : TextCodec)
    (uq : String → String) (k v : String)
    (h1 : pyStartsWith (pyLower k) cfg.baggagePfx = true)
    (h2 : ¬ pyLower k = cfg.trace_id_header) :
    textExtract cfg uq [(k, v)] =
      .ok (some { trace_id := none, span_id := none, parent_id := none,
                  flags := none,
                  baggage := [(pyLower (pyDrop k cfg.pfxLen),
                               if cfg.url_encoding then uq v else v)],
                  debug_id := none }) := by
  simp [textExtract, textExtractLoop, textExtractStep, textInitState,
    h1, h2, mkSpanContext, pyFalsyInt, pyFalsyStr, pyFalsyDict]

theorem text_extract_baggage_key_lowercased_witness :
    textExtract defaultTextCodec id [("UBERCTX-Bar", "w")] =
      .ok (some { trace_id := none, span_id := none, parent_id := none,
                  flags := none, baggage := [("bar", "w")],
                  debug_id := none }) := by
  have h := text_extract_baggage_key_lowercased defaultTextCodec id
    "UBERCTX-Bar" "w" (by decide) (by decide)
  exact h

theorem textExtractLoop_error (cfg : TextCodec) (uq : String → String)
    (entries : List (String × String)) (k v : String)
    (hmem : (k, v) ∈ entries) (hk : pyLower k = cfg.trace_id_header)
    (hurl : cfg.url_encoding = false)
    (e : PyErr) (hbad : spanContextFromString (.vStr v) = .error e) :
    ∀ st, ∃ e', textExtractLoop cfg uq entries st = .error e' := by
  induction entries with
  | nil => cases hmem
  | cons ent rest ih =>
      intro st
      obtain ⟨k', v'⟩ := ent
      rcases List.mem_cons.mp hmem with heq | hmem'
      · injection heq with hk2 hv2
        subst hk2
        subst hv2
        refine ⟨e, ?_⟩
        simp only [textExtractLoop, textExtractStep, if_pos hk, hurl,
          if_false, Bool.false_eq_true, hbad]
      · cases hstep : textExtractStep cfg uq st k' v' with
        | error e' => exact ⟨e', by simp [textExtractLoop, hstep]⟩
        | ok st' =>
            obtain ⟨e', he'⟩ := ih hmem' st'
            exact ⟨e', by simp [textExtractLoop, hstep, he']⟩

/-- C1 (amended): if the trace header is present but its value fails to
parse, `TextCodec.extract` does not silently degrade: it propagates the
`ContextCorruptedError` raised by the combined-string decoder, and no
baggage is returned.  (The all-fields-cleared path applies only when the
trace or span id is missing or falsy after a scan with no parse error.) -/
theorem text_extract_malformed_trace_header_raises (cfg : TextCodec)
    (uq : String → String) (carrier : List (String × String)) (k v : String)
    (hurl : cfg.url_encoding = false)
    (hmem : (k, v) ∈ carrier) (hk : pyLower k = cfg.trace_id_header)
    (e : PyErr) (hbad : spanContextFromString (.vStr v) = .error e) :
    ∃ e', textExtract cfg uq carrier = .error e' := by
  obtain ⟨e', he'⟩ := textExtractLoop_error cfg uq carrier k v hmem hk hurl
    e hbad textInitState
  exact ⟨e', by simp [textExtract, he']⟩

/-- C1 counterexample: with the trace header present but unparsable and a
baggage header also present, `extract` raises (returns the corruption
error) instead of returning a context with cleared trace fields and the
baggage preserved. -/
theorem text_extract_silent_degrade_cex :
    textExtract defaultTextCodec id
      [("uber-trace-id", "nothex:1:0:1"), ("uberctx-k", "v")] =
      .error .contextCorrupted := by decide

theorem text_extract_malformed_trace_header_raises_witness :
    ∃ e', textExtract defaultTextCodec id
      [("uber-trace-id", "nothex:1:0:1")] = .error e' :=
  text_extract_malformed_trace_header_raises defaultTextCodec id
    [("uber-trace-id", "nothex:1:0:1")] "uber-trace-id" "nothex:1:0:1"
    rfl (by decide) (by decide) PyErr.contextCorrupted (by decide)

theorem packQ_ok (v : Int) (b : List Nat) (h : packQ v = .ok b) :
    b = toBytesBE 8 v.toNat ∧ 0 ≤ v ∧ v ≤ maxInt64 := by
  unfold packQ at h
  split at h
  · exact ⟨(Except.ok.inj h).symm, by assumption⟩
  · cases h

theorem packB_ok (v : Option Int) (b : List Nat) (h : packB v = .ok b) :
    ∃ f : Int, v = some f ∧ b = [f.toNat] ∧ (0 ≤ f ∧ f < 256) := by
  rcases v with - | f
  · simp [packB] at h
  · simp only [packB] at h
    split_ifs at h
    exact ⟨f, rfl, (Except.ok.inj h).symm, by assumption⟩

theorem packI4_ok (n : Nat) (b : List Nat) (h : packI4 n = .ok b) :
    b = toBytesBE 4 n ∧ n < 2 ^ 32 := by
  unfold packI4 at h
  split at h
  · exact ⟨(Except.ok.inj h).symm, by assumption⟩
  · cases h

theorem drop_chunk (a r : List Nat) (n m : Nat) (h : a.length = n) :
    (a ++ r).drop (n + m) = r.drop m := by
  subst h
  exact List.drop_append m

theorem take_chunk (a r : List Nat) (n : Nat) (h : a.length = n) :
    (a ++ r).take n = a := List.take_left' h

theorem binaryInject_ok (ctx : SpanContext) (carrier bytes : List Nat)
    (hw : binaryInject ctx carrier = .ok bytes) :
    ∃ (f : Int) (items : List Nat) (tid : Int),
      ctx.trace_id = some tid ∧
      ctx.flags = some f ∧ 0 ≤ f ∧ f < 256 ∧
      packBaggageItems ctx.baggage = .ok items ∧
      ctx.baggage.length < 2 ^ 32 ∧
      (let high : Int :=
        if tid > maxInt64 then Int.ofNat (tid.toNat >>> 64 % 2 ^ 64) else 0
       let low : Int :=
        if tid > maxInt64 then Int.ofNat (tid.toNat % 2 ^ 64) else tid
      0 ≤ high ∧ high ≤ maxInt64 ∧ 0 ≤ low ∧ low ≤ maxInt64 ∧
      0 ≤ ctx.span_id.getD 0 ∧ ctx.span_id.getD 0 ≤ maxInt64 ∧
      0 ≤ ctx.parent_id.getD 0 ∧ ctx.parent_id.getD 0 ≤ maxInt64 ∧
      bytes = carrier ++ toBytesBE 8 high.toNat ++ toBytesBE 8 low.toNat ++
        toBytesBE 8 (ctx.span_id.getD 0).toNat ++
        toBytesBE 8 (ctx.parent_id.getD 0).toNat ++
        [f.toNat] ++ toBytesBE 4 ctx.baggage.length ++ items) := by
  rcases htid : ctx.trace_id with - | tid
  · simp [binaryInject, htid] at hw
  simp only [binaryInject, htid] at hw
  cases hbh : packQ
      (if tid > maxInt64 then Int.ofNat (tid.toNat >>> 64 % 2 ^ 64)
       else (0 : Int)) with
  | error e => rw [hbh] at hw; simp at hw
  | ok bh =>
  rw [hbh] at hw
  cases hbl : packQ
      (if tid > maxInt64 then Int.ofNat (tid.toNat % 2 ^ 64) else tid) with
  | error e => rw [hbl] at hw; simp at hw
  | ok bl =>
  rw [hbl] at hw
  cases hbs : packQ (ctx.span_id.getD 0) with
  | error e => rw [hbs] at hw; simp at hw
  | ok bs =>
  rw [hbs] at hw
  cases hbp : packQ (ctx.parent_id.getD 0) with
  | error e => rw [hbp] at hw; simp at hw
  | ok bp =>
  rw [hbp] at hw
  cases hbf : packB ctx.flags with
  | error e => rw [hbf] at hw; simp at hw
  | ok bf =>
  rw [hbf] at hw
  cases hbc : packI4 ctx.baggage.length with
  | error e => rw [hbc] at hw; simp at hw
  | ok bc =>
  rw [hbc] at hw
  cases hit : packBaggageItems ctx.baggage with
  | error e => rw [hit] at hw; simp at hw
  | ok items =>
  rw [hit] at hw
  simp only at hw
  obtain ⟨hbh', hh0, hh1⟩ := packQ_ok _ _ hbh
  obtain ⟨hbl', hl0, hl1⟩ := packQ_ok _ _ hbl
  obtain ⟨hbs', hs0, hs1⟩ := packQ_ok _ _ hbs
  obtain ⟨hbp', hp0, hp1⟩ := packQ_ok _ _ hbp
  obtain ⟨f, hf, hbf', hf0, hf1⟩ := packB_ok _ _ hbf
  obtain ⟨hbc', hc1⟩ := packI4_ok _ _ hbc
  refine ⟨f, items, tid, rfl, hf, hf0, hf1, rfl, hc1,
    hh0, hh1, hl0, hl1, hs0, hs1, hp0, hp1, ?_⟩
  have hby := Except.ok.inj hw
  rw [← hby, hbh', hbl', hbs', hbp', hbf', hbc']
  simp only [List.append_assoc]

theorem pySliceFrom_append (a r : List Nat) (k : Int)
    (hk : k = (a.length : Int)) : pySliceFrom (a ++ r) k = r := by
  subst hk
  unfold pySliceFrom
  rw [if_pos (by positivity)]
  rw [Int.toNat_ofNat]
  exact List.drop_left a r

theorem readKV_packed (s : String) (tail : List Nat)
    (h : (utf8Encode s).length < 2 ^ 31) :
    readKV (toBytesBE 4 (utf8Encode s).length ++ utf8Encode s ++ tail) =
      .ok (s, 4 + ((utf8Encode s).length : Int)) := by
  set kb := utf8Encode s with hkb
  set L := kb.length with hL
  have hA : (toBytesBE 4 L).length = 4 := toBytesBE_length 4 L
  have hlen : (toBytesBE 4 L ++ kb ++ tail).length = 4 + L + tail.length := by
    simp [hA]
    omega
  have htake : (toBytesBE 4 L ++ kb ++ tail).take 4 = toBytesBE 4 L := by
    rw [List.append_assoc]
    exact take_chunk _ _ 4 hA
  have hdrop : (toBytesBE 4 L ++ kb ++ tail).drop 4 = kb ++ tail := by
    rw [List.append_assoc]
    rw [show (4 : Nat) = 4 + 0 by norm_num, drop_chunk _ _ 4 0 hA]
    exact List.drop_zero _
  simp only [readKV]
  rw [if_neg (by rw [hlen]; omega)]
  rw [htake]
  rw [fromBytesBE_toBytesBE 4 L (by norm_num at h ⊢; omega)]
  rw [if_pos h]
  rw [if_neg (by omega : ¬((L : Int) < 0))]
  rw [if_neg (by rw [hlen]; push_cast; omega)]
  rw [hdrop]
  rw [Int.toNat_ofNat]
  rw [take_chunk kb tail L rfl]
  rw [hkb, utf8Decode_utf8Encode s]

theorem unpackBaggageItem_packed (k v : String) (tail : List Nat)
    (hk : (utf8Encode k).length < 2 ^ 31)
    (hv : (utf8Encode v).length < 2 ^ 31) :
    unpackBaggageItem (toBytesBE 4 (utf8Encode k).length ++ utf8Encode k ++
        (toBytesBE 4 (utf8Encode v).length ++ utf8Encode v ++ tail)) =
      .ok (k, v, 4 + ((utf8Encode k).length : Int) +
        (4 + ((utf8Encode v).length : Int))) ∧
    pySliceFrom (toBytesBE 4 (utf8Encode k).length ++ utf8Encode k ++
        (toBytesBE 4 (utf8Encode v).length ++ utf8Encode v ++ tail))
      (4 + ((utf8Encode k).length : Int) +
        (4 + ((utf8Encode v).length : Int))) = tail := by
  have hs1 : pySliceFrom (toBytesBE 4 (utf8Encode k).length ++ utf8Encode k ++
      (toBytesBE 4 (utf8Encode v).length ++ utf8Encode v ++ tail))
      (4 + ((utf8Encode k).length : Int)) =
      toBytesBE 4 (utf8Encode v).length ++ utf8Encode v ++ tail := by
    apply pySliceFrom_append
    simp [toBytesBE_length]
  constructor
  · unfold unpackBaggageItem
    rw [readKV_packed k _ hk]
    dsimp only
    rw [hs1]
    rw [readKV_packed v tail hv]
  · rw [show toBytesBE 4 (utf8Encode k).length ++ utf8Encode k ++
        (toBytesBE 4 (utf8Encode v).length ++ utf8Encode v ++ tail) =
        (toBytesBE 4 (utf8Encode k).length ++ utf8Encode k ++
          (toBytesBE 4 (utf8Encode v).length ++ utf8Encode v)) ++ tail by
      simp [List.append_assoc]]
    apply pySliceFrom_append
    simp [toBytesBE_length]
    ring

theorem packBaggageItem_ok (k v : String)
    (hk : (utf8Encode k).length < 2 ^ 31)
    (hv : (utf8Encode v).length < 2 ^ 31) :
    packBaggageItem k v =
      .ok (toBytesBE 4 (utf8Encode k).length ++ utf8Encode k ++
        (toBytesBE 4 (utf8Encode v).length ++ utf8Encode v)) := by
  simp only [packBaggageItem, packI4]
  rw [if_pos (show (utf8Encode k).length < 2 ^ 32 by omega)]
  dsimp only
  rw [if_pos (show (utf8Encode v).length < 2 ^ 32 by omega)]
  dsimp only
  rw [List.append_assoc]

theorem readBaggageItems_ok (bg : List (String × String))
    (h : ∀ kv ∈ bg, (utf8Encode kv.1).length < 2 ^ 31 ∧
        (utf8Encode kv.2).length < 2 ^ 31) :
    ∀ items acc, packBaggageItems bg = .ok items →
      ∃ out, readBaggageItems bg.length items acc = .ok out := by
  induction bg with
  | nil => exact fun items acc _ => ⟨acc, rfl⟩
  | cons kv rest ih =>
      intro items acc hp
      obtain ⟨k, v⟩ := kv
      have hk := (h (k, v) (List.mem_cons_self _ _)).1
      have hv := (h (k, v) (List.mem_cons_self _ _)).2
      simp only [packBaggageItems] at hp
      rw [packBaggageItem_ok k v hk hv] at hp
      dsimp only at hp
      cases hrest : packBaggageItems rest with
      | error e => rw [hrest] at hp; simp at hp
      | ok restItems =>
          rw [hrest] at hp
          dsimp only at hp
          obtain rfl := (Except.ok.inj hp).symm
          have hform : (toBytesBE 4 (utf8Encode k).length ++ utf8Encode k ++
              (toBytesBE 4 (utf8Encode v).length ++ utf8Encode v)) ++
                restItems =
              toBytesBE 4 (utf8Encode k).length ++ utf8Encode k ++
              (toBytesBE 4 (utf8Encode v).length ++ utf8Encode v ++
                restItems) := by
            simp [List.append_assoc]
          rw [hform]
          obtain ⟨hu, hslice⟩ := unpackBaggageItem_packed k v restItems hk hv
          simp only [List.length_cons, readBaggageItems]
          rw [hu]
          dsimp only
          rw [hslice]
          exact ih (fun kv hm => h kv (List.mem_cons_of_mem _ hm)) restItems
            (dictSet acc k v) hrest

theorem packQ_eval (v : Int) (h0 : 0 ≤ v) (h1 : v ≤ maxInt64) :
    packQ v = .ok (toBytesBE 8 v.toNat) := by
  unfold packQ
  rw [if_pos ⟨h0, h1⟩]

theorem packB_eval (f : Int) (h0 : 0 ≤ f) (h1 : f < 256) :
    packB (some f) = .ok [f.toNat] := by
  simp only [packB]
  rw [if_pos ⟨h0, h1⟩]

theorem packI4_eval (n : Nat) (h : n < 2 ^ 32) :
    packI4 n = .ok (toBytesBE 4 n) := by
  unfold packI4
  rw [if_pos h]

theorem packBaggageItems_ok (bg : List (String × String))
    (h : ∀ kv ∈ bg, (utf8Encode kv.1).length < 2 ^ 31 ∧
        (utf8Encode kv.2).length < 2 ^ 31) :
    ∃ items, packBaggageItems bg = .ok items := by
  induction bg with
  | nil => exact ⟨[], rfl⟩
  | cons kv rest ih =>
      obtain ⟨k, v⟩ := kv
      obtain ⟨items', hi⟩ := ih (fun kv hm => h kv (List.mem_cons_of_mem _ hm))
      refine ⟨(toBytesBE 4 (utf8Encode k).length ++ utf8Encode k ++
        (toBytesBE 4 (utf8Encode v).length ++ utf8Encode v)) ++ items', ?_⟩
      simp only [packBaggageItems]
      rw [packBaggageItem_ok k v (h (k, v) (List.mem_cons_self _ _)).1
        (h (k, v) (List.mem_cons_self _ _)).2]
      dsimp only
      rw [hi]

theorem drop_chunk_all (a r : List Nat) (n : Nat) (h : a.length = n) :
    (a ++ r).drop n = r := by
  rw [← h]
  exact List.drop_left a r

theorem binaryInject_eval (ctx : SpanContext) (tid f : Int) (items : List Nat)
    (ht : ctx.trace_id = some tid) (h1 : 1 ≤ tid)
    (hsp : 0 ≤ ctx.span_id.getD 0) (hsp2 : ctx.span_id.getD 0 ≤ maxInt64)
    (hpa : 0 ≤ ctx.parent_id.getD 0) (hpa2 : ctx.parent_id.getD 0 ≤ maxInt64)
    (hfeq : ctx.flags = some f) (hf0 : 0 ≤ f) (hf1 : f < 256)
    (hcnt : ctx.baggage.length < 2 ^ 32)
    (hitems : packBaggageItems ctx.baggage = .ok items) :
    binaryInject ctx [] = .ok
      ([] ++ toBytesBE 8 (if tid > maxInt64 then
          Int.ofNat (tid.toNat >>> 64 % 2 ^ 64) else 0).toNat ++
        toBytesBE 8 (if tid > maxInt64 then
          Int.ofNat (tid.toNat % 2 ^ 64) else tid).toNat ++
        toBytesBE 8 (ctx.span_id.getD 0).toNat ++
        toBytesBE 8 (ctx.parent_id.getD 0).toNat ++
        [f.toNat] ++ toBytesBE 4 ctx.baggage.length ++ items) := by
  have hh0 : 0 ≤ (if tid > maxInt64 then
      Int.ofNat (tid.toNat >>> 64 % 2 ^ 64) else 0) := by
    split_ifs
    · exact Int.ofNat_nonneg _
    · omega
  have hh1 : (if tid > maxInt64 then
      Int.ofNat (tid.toNat >>> 64 % 2 ^ 64) else 0) ≤ maxInt64 := by
    simp only [maxInt64]
    split_ifs
    · have h2 : tid.toNat >>> 64 % 2 ^ 64 < 2 ^ 64 :=
        Nat.mod_lt _ (by positivity)
      have hm : tid.toNat >>> 64 % 2 ^ 64 ≤ 18446744073709551615 := by omega
      exact Int.ofNat_le.mpr hm
    · omega
  have hl0 : 0 ≤ (if tid > maxInt64 then
      Int.ofNat (tid.toNat % 2 ^ 64) else tid) := by
    split_ifs
    · exact Int.ofNat_nonneg _
    · omega
  have hl1 : (if tid > maxInt64 then
      Int.ofNat (tid.toNat % 2 ^ 64) else tid) ≤ maxInt64 := by
    simp only [maxInt64]
    split_ifs with hc
    · have h2 : tid.toNat % 2 ^ 64 < 2 ^ 64 := Nat.mod_lt _ (by positivity)
      have hm : tid.toNat % 2 ^ 64 ≤ 18446744073709551615 := by omega
      exact Int.ofNat_le.mpr hm
    · simp only [maxInt64] at hc
      omega
  simp only [binaryInject, ht]
  rw [packQ_eval _ hh0 hh1]
  dsimp only
  rw [packQ_eval _ hl0 hl1]
  dsimp only
  rw [packQ_eval _ hsp hsp2]
  dsimp only
  rw [packQ_eval _ hpa hpa2]
  dsimp only
  rw [hfeq, packB_eval f hf0 hf1]
  dsimp only
  rw [packI4_eval _ hcnt]
  dsimp only
  rw [hitems]
  dsimp only
  simp [List.append_assoc]


theorem binaryExtract_packed (hi lo sp pa : Nat) (f : Int) (cnt : Nat)
    (items : List Nat) (out : List (String × String))
    (hhi : hi < 2 ^ 64) (hlo : lo < 2 ^ 64) (hsp : sp < 2 ^ 64)
    (hpa : pa < 2 ^ 64) (hcnt : cnt < 2 ^ 32)
    (hbg : (if cnt ≠ 0 then readBaggageItems cnt items [] else .ok []) =
      .ok out) :
    binaryExtract (toBytesBE 8 hi ++ (toBytesBE 8 lo ++ (toBytesBE 8 sp ++
        (toBytesBE 8 pa ++ ([f.toNat] ++ (toBytesBE 4 cnt ++ items)))))) =
      .ok (mkSpanContext
        (some (Int.ofNat (if hi ≠ 0 then hi * 2 ^ 64 + lo else lo)))
        (some (Int.ofNat sp)) (some (Int.ofNat pa))
        (some (Int.ofNat f.toNat)) (some out) none) := by
  have lenA : (toBytesBE 8 hi).length = 8 := toBytesBE_length 8 hi
  have lenB : (toBytesBE 8 lo).length = 8 := toBytesBE_length 8 lo
  have lenC : (toBytesBE 8 sp).length = 8 := toBytesBE_length 8 sp
  have lenD : (toBytesBE 8 pa).length = 8 := toBytesBE_length 8 pa
  have lenF : (toBytesBE 4 cnt).length = 4 := toBytesBE_length 4 cnt
  have hsplit : toBytesBE 8 hi ++ (toBytesBE 8 lo ++ (toBytesBE 8 sp ++
      (toBytesBE 8 pa ++ ([f.toNat] ++ (toBytesBE 4 cnt ++ items))))) =
      (toBytesBE 8 hi ++ (toBytesBE 8 lo ++ (toBytesBE 8 sp ++
        (toBytesBE 8 pa ++ ([f.toNat] ++ toBytesBE 4 cnt))))) ++ items := by
    simp [List.append_assoc]
  have h37 : (toBytesBE 8 hi ++ (toBytesBE 8 lo ++ (toBytesBE 8 sp ++
      (toBytesBE 8 pa ++ ([f.toNat] ++ toBytesBE 4 cnt))))).length = 37 := by
    simp [toBytesBE_length]
  have hd8 : (toBytesBE 8 hi ++ (toBytesBE 8 lo ++ (toBytesBE 8 sp ++
      (toBytesBE 8 pa ++ ([f.toNat] ++ toBytesBE 4 cnt))))).drop 8 =
      toBytesBE 8 lo ++ (toBytesBE 8 sp ++
        (toBytesBE 8 pa ++ ([f.toNat] ++ toBytesBE 4 cnt))) :=
    drop_chunk_all _ _ 8 lenA
  have hd16 : (toBytesBE 8 hi ++ (toBytesBE 8 lo ++ (toBytesBE 8 sp ++
      (toBytesBE 8 pa ++ ([f.toNat] ++ toBytesBE 4 cnt))))).drop 16 =
      toBytesBE 8 sp ++ (toBytesBE 8 pa ++ ([f.toNat] ++ toBytesBE 4 cnt)) := by
    have h' : (toBytesBE 8 hi ++ (toBytesBE 8 lo ++ (toBytesBE 8 sp ++
        (toBytesBE 8 pa ++ ([f.toNat] ++ toBytesBE 4 cnt))))).drop 16 =
        ((toBytesBE 8 hi ++ (toBytesBE 8 lo ++ (toBytesBE 8 sp ++
          (toBytesBE 8 pa ++ ([f.toNat] ++ toBytesBE 4 cnt))))).drop 8).drop 8 := by
      rw [List.drop_drop]
    rw [h', hd8]
    exact drop_chunk_all _ _ 8 lenB
  have hd24 : (toBytesBE 8 hi ++ (toBytesBE 8 lo ++ (toBytesBE 8 sp ++
      (toBytesBE 8 pa ++ ([f.toNat] ++ toBytesBE 4 cnt))))).drop 24 =
      toBytesBE 8 pa ++ ([f.toNat] ++ toBytesBE 4 cnt) := by
    have h' : (toBytesBE 8 hi ++ (toBytesBE 8 lo ++ (toBytesBE 8 sp ++
        (toBytesBE 8 pa ++ ([f.toNat] ++ toBytesBE 4 cnt))))).drop 24 =
        ((toBytesBE 8 hi ++ (toBytesBE 8 lo ++ (toBytesBE 8 sp ++
          (toBytesBE 8 pa ++ ([f.toNat] ++ toBytesBE 4 cnt))))).drop 16).drop 8 := by
      rw [List.drop_drop]
    rw [h', hd16]
    exact drop_chunk_all _ _ 8 lenC
  have hd32 : (toBytesBE 8 hi ++ (toBytesBE 8 lo ++ (toBytesBE 8 sp ++
      (toBytesBE 8 pa ++ ([f.toNat] ++ toBytesBE 4 cnt))))).drop 32 =
      [f.toNat] ++ toBytesBE 4 cnt := by
    have h' : (toBytesBE 8 hi ++ (toBytesBE 8 lo ++ (toBytesBE 8 sp ++
        (toBytesBE 8 pa ++ ([f.toNat] ++ toBytesBE 4 cnt))))).drop 32 =
        ((toBytesBE 8 hi ++ (toBytesBE 8 lo ++ (toBytesBE 8 sp ++
          (toBytesBE 8 pa ++ ([f.toNat] ++ toBytesBE 4 cnt))))).drop 24).drop 8 := by
      rw [List.drop_drop]
    rw [h', hd24]
    exact drop_chunk_all _ _ 8 lenD
  have hd33 : (toBytesBE 8 hi ++ (toBytesBE 8 lo ++ (toBytesBE 8 sp ++
      (toBytesBE 8 pa ++ ([f.toNat] ++ toBytesBE 4 cnt))))).drop 33 =
      toBytesBE 4 cnt := by
    have h' : (toBytesBE 8 hi ++ (toBytesBE 8 lo ++ (toBytesBE 8 sp ++
        (toBytesBE 8 pa ++ ([f.toNat] ++ toBytesBE 4 cnt))))).drop 33 =
        ((toBytesBE 8 hi ++ (toBytesBE 8 lo ++ (toBytesBE 8 sp ++
          (toBytesBE 8 pa ++ ([f.toNat] ++ toBytesBE 4 cnt))))).drop 32).drop 1 := by
      rw [List.drop_drop]
    rw [h', hd32]
    exact drop_chunk_all [f.toNat] _ 1 (by rfl)
  simp only [binaryExtract]
  rw [hsplit]
  rw [if_neg (by
    rw [List.length_append, h37]
    omega)]
  rw [take_chunk _ _ 37 h37]
  rw [drop_chunk_all _ _ 37 h37]
  rw [take_chunk _ _ 8 lenA]
  rw [hd8, take_chunk _ _ 8 lenB]
  rw [hd16, take_chunk _ _ 8 lenC]
  rw [hd24, take_chunk _ _ 8 lenD]
  rw [hd32, take_chunk [f.toNat] _ 1 (by rfl)]
  rw [hd33]
  rw [fromBytesBE_toBytesBE 8 hi (by norm_num; omega)]
  rw [fromBytesBE_toBytesBE 8 lo (by norm_num; omega)]
  rw [fromBytesBE_toBytesBE 8 sp (by norm_num; omega)]
  rw [fromBytesBE_toBytesBE 8 pa (by norm_num; omega)]
  rw [fromBytesBE_toBytesBE 4 cnt (by norm_num; omega)]
  rw [show fromBytesBE [f.toNat] = f.toNat by simp [fromBytesBE]]
  rw [hbg]

